import Mathlib

/-!
Verification development for the VulkanSponza deferred renderer
(src/src/vulkansponza.cpp).  The data model and the pure content of the
operations named by the specification are embedded shallowly: GPU handles
become natural numbers (0 playing the role of a null / value-initialized
handle), command buffers become lists of recorded commands, queue
submissions become records of wait/signal semaphore lists, and the
stateful resource registries become explicit state-passing functions.
Machine integers are modelled as Nat with an explicit reduction modulo
2 ^ 32 at the points where the source performs uint32_t arithmetic.
-/

namespace VSponza

/-- Word size of the uint32_t values used throughout the source. -/
def U32 : Nat := 2 ^ 32

/-! ## Resource registry (class VulkanResourceList, vulkansponza.cpp lines 54-73)

A registry maps string names to handles of one GPU object kind.  The C++
class stores a std::unordered_map; we model it as an association list with
unique keys (insertion replaces).  The member get uses operator[] on the
map, which default-inserts a value-initialized handle when the key is
absent; getPtr does the same; present uses find and does not insert. -/

structure Registry (H : Type) where
  entries : List (String × H)

/-- Lookup of a key in the underlying map (no insertion, like map.find). -/
def Registry.lookup {H : Type} (r : Registry H) (name : String) : Option H :=
  (r.entries.find? (fun e => e.1 == name)).map (fun e => e.2)

/-- Member present: resources.find(name) != resources.end(). -/
def Registry.isPresent {H : Type} (r : Registry H) (name : String) : Bool :=
  (r.lookup name).isSome

/-- Map assignment resources[name] = h: overwrites an existing entry or
inserts a new one (the add members of all registry subclasses end with
this assignment). -/
def Registry.store {H : Type} (r : Registry H) (name : String) (h : H) : Registry H :=
  ⟨(name, h) :: r.entries.filter (fun e => ! (e.1 == name))⟩

/-- Member get: returns resources[name].  operator[] returns the stored
handle when present and otherwise inserts and returns a value-initialized
(default) handle, so the call both yields a value and may change the
registry state. -/
def Registry.get {H : Type} [Inhabited H] (r : Registry H) (name : String) :
    H × Registry H :=
  match r.lookup name with
  | some h => (h, r)
  | none => (default, ⟨(name, default) :: r.entries⟩)

/-- Member getPtr: &resources[name]; the same operator[] insertion
behaviour as get, modelled by the state component of get. -/
def Registry.getPtr {H : Type} [Inhabited H] (r : Registry H) (name : String) :
    H × Registry H :=
  Registry.get r name

/-- Destructor of every registry subclass: iterates the map and calls the
type-specific destroy on each stored handle.  We record the handles that
get destroyed. -/
def Registry.teardown {H : Type} (r : Registry H) : List H :=
  r.entries.map (fun e => e.2)

/-- External interactions with one registry, used to state trace
properties: add(name, h) (any of the creating add members, with h the
handle the wrapped creation call produced), get(name), getPtr(name). -/
inductive RegOp (H : Type) where
  | add (name : String) (h : H)
  | get (name : String)
  | getPtr (name : String)
deriving DecidableEq

/-- Name a registry operation refers to. -/
def RegOp.name {H : Type} : RegOp H → String
  | .add n _ => n
  | .get n => n
  | .getPtr n => n

/-- Whether a registry operation is an add. -/
def RegOp.isAdd {H : Type} : RegOp H → Bool
  | .add _ _ => true
  | _ => false

/-- Effect of one operation on the registry state. -/
def runRegOp {H : Type} [Inhabited H] (r : Registry H) : RegOp H → Registry H
  | .add n h => r.store n h
  | .get n => (r.get n).2
  | .getPtr n => (r.getPtr n).2

/-- Effect of a sequence of operations, first operation first. -/
def runRegOps {H : Type} [Inhabited H] (r : Registry H) : List (RegOp H) → Registry H
  | [] => r
  | op :: rest => runRegOps (runRegOp r op) rest

/-- Registry in its freshly constructed state (empty map). -/
def emptyRegistry (H : Type) : Registry H := ⟨[]⟩

/-- Handle stored by the most recent add under the given name in a trace,
if any add with that name occurred. -/
def lastAdded {H : Type} : List (RegOp H) → String → Option H
  | [], _ => none
  | .add m h :: rest, n =>
    (match lastAdded rest n with
     | some h2 => some h2
     | none => if m = n then some h else none)
  | .get _ :: rest, n => lastAdded rest n
  | .getPtr _ :: rest, n => lastAdded rest n

/-! ## Device memory type selection (getMemTypeIndex, lines 249-265)

The helper scans the 32 memory types, shifting typeBits right once per
iteration and testing its low bit; on a propertyFlags match it returns the
current index, and after the loop it falls through to return 0 (the
source carries a todo remark about the missing error path).  The global
deviceMemProps.memoryTypes array is abstracted as a function from index
to propertyFlags. -/

/-- Loop body of getMemTypeIndex: fuel counts the remaining iterations of
the for loop (starting at 32), typeBits is the already-shifted value and
i the current index. -/
def memTypeLoop (memTypes : Nat → Nat) (properties : Nat) :
    Nat → Nat → Nat → Nat
  | 0, _, _ => 0
  | fuel + 1, typeBits, i =>
    if typeBits % 2 = 1 ∧ Nat.land (memTypes i) properties = properties then i
    else memTypeLoop memTypes properties fuel (typeBits / 2) (i + 1)

/-- The helper getMemTypeIndex(typeBits, properties): 32 loop iterations
starting at index 0 with the unshifted typeBits. -/
def getMemTypeIndex (memTypes : Nat → Nat) (typeBits properties : Nat) : Nat :=
  memTypeLoop memTypes properties 32 typeBits 0

/-! ## Per-frame submission chain (VulkanExample::draw, lines 2246-2280)

Each vkQueueSubmit in draw() submits one command buffer with one wait
semaphore and one signal semaphore (the shared submitInfo, initialized by
the example base framework outside this repository, keeps
waitSemaphoreCount = signalSemaphoreCount = 1; per the specification no
stage signals or waits on more than one semaphore).  draw() only repoints
pWaitSemaphores / pSignalSemaphores / pCommandBuffers between the
submissions. -/

/-- The semaphores appearing in draw(): the base framework's
presentComplete and renderComplete pair, the per-light
shadowmapPass[i].semaphore, and deferredSemaphore. -/
inductive Sem where
  | presentComplete
  | shadow (i : Nat)
  | deferred
  | renderComplete
deriving DecidableEq

/-- Command buffers submitted in draw(). -/
inductive CmdBuf where
  | shadowmap (i : Nat)
  | deferredCmd
  | composition
deriving DecidableEq

/-- One vkQueueSubmit call: the semaphores waited on, the semaphores
signalled, and the command buffers submitted. -/
structure Submission where
  waitSems : List Sem
  signalSems : List Sem
  cmdBufs : List CmdBuf
deriving DecidableEq

/-- NUM_LIGHTS (line 851). -/
def NUM_LIGHTS : Nat := 3

/-- The sequence of queue submissions performed by one call to draw(),
in submission order: the NUM_LIGHTS shadow submissions (i = 0 waiting on
presentComplete, i > 0 waiting on shadowmapPass[i-1].semaphore, each
signalling shadowmapPass[i].semaphore), then the deferred (geometry)
submission, then the composition submission. -/
def drawSubmissions (numLights : Nat) : List Submission :=
  (List.range numLights).map (fun i =>
    { waitSems := [if i = 0 then Sem.presentComplete else Sem.shadow (i - 1)]
      signalSems := [Sem.shadow i]
      cmdBufs := [CmdBuf.shadowmap i] })
  ++ [{ waitSems := [Sem.shadow (numLights - 1)]
        signalSems := [Sem.deferred]
        cmdBufs := [CmdBuf.deferredCmd] },
      { waitSems := [Sem.deferred]
        signalSems := [Sem.renderComplete]
        cmdBufs := [CmdBuf.composition] }]

/-! ## Shadow pass preparation (prepareShadowmapRenderpass lines 1044-1095,
prepareShadowmapFramebuffer lines 1098-1168)

prepareShadowmapRenderpass fills one render-pass description and then
loops i = 0 .. NUM_LIGHTS-1 creating a render pass into
shadowmapPass[i].renderPass for every i.  prepareShadowmapFramebuffer
loops over the lights and, for each light, creates the depth image,
memory, view and sampler, then calls prepareShadowmapRenderpass() (inside
the loop), then creates the framebuffer.  We record the GPU object
creation calls each function performs. -/

/-- GPU object creation events of the shadow-pass preparation phase; the
index is the shadowmapPass array slot the created handle is stored to. -/
inductive PrepEvent where
  | createRenderPass (slot : Nat)
  | createImage (slot : Nat)
  | allocateMemory (slot : Nat)
  | createImageView (slot : Nat)
  | createSampler (slot : Nat)
  | createFramebuffer (slot : Nat)
deriving DecidableEq

/-- Whether an event is a render pass creation. -/
def PrepEvent.isRenderPassCreation : PrepEvent → Bool
  | .createRenderPass _ => true
  | _ => false

/-- Creation calls of prepareShadowmapRenderpass: one vkCreateRenderPass
per light (for loop at lines 1091-1094). -/
def prepareShadowmapRenderpassEvents (numLights : Nat) : List PrepEvent :=
  (List.range numLights).map (fun i => PrepEvent.createRenderPass i)

/-- Creation calls of prepareShadowmapFramebuffer: per light, the depth
attachment objects, then a full call to prepareShadowmapRenderpass()
(line 1155, inside the per-light loop), then the framebuffer. -/
def prepareShadowmapFramebufferEvents (numLights : Nat) : List PrepEvent :=
  (List.range numLights).foldr
    (fun i acc =>
      [PrepEvent.createImage i, PrepEvent.allocateMemory i,
       PrepEvent.createImageView i, PrepEvent.createSampler i]
      ++ prepareShadowmapRenderpassEvents numLights
      ++ [PrepEvent.createFramebuffer i] ++ acc) []

/-! ## Scene data model (struct SceneMaterial lines 216-228, struct SceneMesh
lines 230-245)

Texture and pipeline handles are modelled as Nat (0 = null handle).  A
SceneMesh keeps a pointer to its material (meshes[i].material =
&materials[aMesh->mMaterialIndex], line 410), modelled as the material
index into the scene's material list. -/

/-- Scene material after loadMaterials resolved its textures. -/
structure SceneMaterialM where
  name : String
  diffuse : Nat
  roughness : Nat
  metallic : Nat
  bump : Nat
  hasAlpha : Bool
  hasBump : Bool
  hasRoughness : Bool
  hasMetaliness : Bool
  pipeline : Nat
deriving DecidableEq

instance : Inhabited SceneMaterialM :=
  ⟨⟨"", 0, 0, 0, 0, false, false, false, false, 0⟩⟩

/-- Scene mesh after loadMeshes: its range in the global index buffer, its
material (by index), and its descriptor set handle. -/
structure SceneMeshM where
  indexCount : Nat
  indexBase : Nat
  materialIndex : Nat
  descriptorSet : Nat
deriving DecidableEq

instance : Inhabited SceneMeshM := ⟨⟨0, 0, 0, 0⟩⟩

/-- The mesh.material->hasAlpha access used by the command buffer builders,
resolved through the mesh's material index. -/
def meshHasAlpha (materials : List SceneMaterialM) (m : SceneMeshM) : Bool :=
  (materials.getD m.materialIndex default).hasAlpha

/-! ## Recorded commands (buildShadowmapCommandBuffer lines 1170-1244,
buildDeferredCommandBuffer lines 1453-1546)

Commands are recorded into a list in call order.  Buffers bound by
vkCmdBindVertexBuffers / vkCmdBindIndexBuffer and render passes are
identified by name; descriptor set handles are Nat. -/

/-- One recorded command; drawIndexed carries the five arguments of
vkCmdDrawIndexed after the command buffer (indexCount, instanceCount,
firstIndex, vertexOffset, firstInstance). -/
inductive Cmd where
  | setViewport
  | setScissor
  | setDepthBias
  | beginRenderPass (renderPass : String)
  | endRenderPass
  | bindPipeline (name : String)
  | bindDescriptorSets (ds : Nat)
  | pushConstants (value : Nat)
  | bindVertexBuffers (buf : String)
  | bindIndexBuffer (buf : String)
  | drawIndexed (indexCount instanceCount firstIndex vertexOffset firstInstance : Nat)
deriving DecidableEq

/-- Arguments of a command when it is an indexed draw. -/
def Cmd.drawArgs : Cmd → Option (Nat × Nat × Nat × Nat × Nat)
  | .drawIndexed a b c d e => some (a, b, c, d, e)
  | _ => none

/-- The indexed draws recorded in a command list, in order. -/
def drawsOf (cmds : List Cmd) : List (Nat × Nat × Nat × Nat × Nat) :=
  cmds.filterMap Cmd.drawArgs

/-- Commands recorded by buildShadowmapCommandBuffer into
shadowmapPass[i].commandBuffer: viewport, scissor, depth bias, render pass
begin, the shadowmap pipeline, the shared shadowmap descriptor set, the
light index i as a push constant, the scene's global vertex and index
buffers, then one vkCmdDrawIndexed(indexCount, 1, 0, indexBase, 0) per
mesh whose material is not alpha flagged (the loop at lines 1230-1238
skips meshes with mesh.material->hasAlpha via continue). -/
def buildShadowmapCmds (materials : List SceneMaterialM)
    (meshes : List SceneMeshM) (shadowmapDS : Nat) (i : Nat) : List Cmd :=
  [Cmd.setViewport, Cmd.setScissor, Cmd.setDepthBias,
   Cmd.beginRenderPass ("shadowmap." ++ toString i),
   Cmd.bindPipeline "shadowmap",
   Cmd.bindDescriptorSets shadowmapDS,
   Cmd.pushConstants i,
   Cmd.bindVertexBuffers "scene.globalVertexBuffer",
   Cmd.bindIndexBuffer "scene.globalIndexBuffer"]
  ++ meshes.flatMap (fun m =>
      if meshHasAlpha materials m then []
      else [Cmd.drawIndexed m.indexCount 1 0 m.indexBase 0])
  ++ [Cmd.endRenderPass]

/-- Vertex stage of the shadow map pass (data/shaders/offscreen.vert):
gl_Position = ubo.depthMVP[pushConsts.lightIdx] * vec4(inPos, 1.0); the
index of the light-space matrix selected from the depthMVP array is the
recorded push constant. -/
def offscreenVertMatrixIndex (pushConstLightIdx : Nat) : Nat :=
  pushConstLightIdx

/-- Commands recorded by buildDeferredCommandBuffer into deferredCmdBuffer:
render pass begin, viewport, scissor, the skysphere (own pipeline,
descriptor set, buffers, one draw), then the scene.solid pipeline and the
global buffers, a first mesh loop that skips alpha meshes (lines
1522-1530), the scene.blend pipeline, and a second mesh loop that draws
only alpha meshes (lines 1534-1541); each scene mesh draw is preceded by
binding that mesh's descriptor set. -/
def buildDeferredCmds (materials : List SceneMaterialM)
    (meshes : List SceneMeshM) (skysphereDS skysphereIndexCount : Nat) : List Cmd :=
  [Cmd.beginRenderPass "offscreen",
   Cmd.setViewport, Cmd.setScissor,
   Cmd.bindPipeline "skysphere",
   Cmd.bindDescriptorSets skysphereDS,
   Cmd.bindVertexBuffers "skysphere",
   Cmd.bindIndexBuffer "skysphere",
   Cmd.drawIndexed skysphereIndexCount 1 0 0 0,
   Cmd.bindPipeline "scene.solid",
   Cmd.bindVertexBuffers "scene.globalVertexBuffer",
   Cmd.bindIndexBuffer "scene.globalIndexBuffer"]
  ++ meshes.flatMap (fun m =>
      if meshHasAlpha materials m then []
      else [Cmd.bindDescriptorSets m.descriptorSet,
            Cmd.drawIndexed m.indexCount 1 0 m.indexBase 0])
  ++ [Cmd.bindPipeline "scene.blend"]
  ++ meshes.flatMap (fun m =>
      if meshHasAlpha materials m then
        [Cmd.bindDescriptorSets m.descriptorSet,
         Cmd.drawIndexed m.indexCount 1 0 m.indexBase 0]
      else [])
  ++ [Cmd.endRenderPass]

/-! ## Mesh consolidation (Scene::loadMeshes, lines 395-559)

For every imported sub-mesh the loop records indexBase (the running
gIndexBase), appends the mesh's vertices to the global vertex list
(gVertices), and appends each face's three indices to the global index
list (gIndices) offset by vertexBase = gVertices.size() taken before the
mesh's vertices were appended; gIndexBase grows by 3 per face and
indexCount = mNumFaces * 3.  Vertex attribute contents (positions, the Y
flip, UVs, ...) are floating point and out of scope here; only the vertex
count is tracked.  gIndexBase, vertexBase, the index values and
indexCount are uint32_t, hence reduced modulo 2 ^ 32; the vertex and
index std::vector sizes are size_t and kept exact. -/

/-- One imported triangle (the loop assumes the mesh is triangulated):
the three mIndices values of an aiFace. -/
structure ImportedFace where
  i0 : Nat
  i1 : Nat
  i2 : Nat
deriving DecidableEq

instance : Inhabited ImportedFace := ⟨⟨0, 0, 0⟩⟩

/-- One imported sub-mesh: mNumVertices, the triangulated face list, and
mMaterialIndex. -/
structure ImportedMesh where
  numVertices : Nat
  faces : List ImportedFace
  materialIndex : Nat
deriving DecidableEq

instance : Inhabited ImportedMesh := ⟨⟨0, [], 0⟩⟩

/-- Index triple appended to gIndices for each face, offset by vertexBase
with uint32_t addition. -/
def meshIndices (vertexBase : Nat) (faces : List ImportedFace) : List Nat :=
  faces.flatMap (fun f =>
    [(f.i0 + vertexBase) % U32, (f.i1 + vertexBase) % U32, (f.i2 + vertexBase) % U32])

/-- Growth of the uint32_t gIndexBase counter over a mesh's face loop
(gIndexBase += 3 once per face). -/
def bumpIndexBase (gIndexBase : Nat) (faces : List ImportedFace) : Nat :=
  faces.foldl (fun g _ => (g + 3) % U32) gIndexBase

/-- Mutable state of Scene::loadMeshes while consolidating. -/
structure MeshLoadState where
  gVertexCount : Nat
  gIndices : List Nat
  gIndexBase : Nat
  outMeshes : List SceneMeshM
deriving DecidableEq

/-- Effect of one iteration of the mesh loop on the consolidation state.
The descriptor set later allocated for the mesh (second loop, lines
728-775) is modelled as a handle distinct per mesh slot. -/
def stepMesh (st : MeshLoadState) (m : ImportedMesh) : MeshLoadState :=
  let vertexBase := st.gVertexCount % U32
  { gVertexCount := st.gVertexCount + m.numVertices
    gIndices := st.gIndices ++ meshIndices vertexBase m.faces
    gIndexBase := bumpIndexBase st.gIndexBase m.faces
    outMeshes := st.outMeshes ++
      [{ indexCount := m.faces.length * 3 % U32
         indexBase := st.gIndexBase
         materialIndex := m.materialIndex
         descriptorSet := st.outMeshes.length }] }

/-- The mesh loop from a given state. -/
def loadMeshesFrom (st : MeshLoadState) : List ImportedMesh → MeshLoadState
  | [] => st
  | m :: rest => loadMeshesFrom (stepMesh st m) rest

/-- State at entry of Scene::loadMeshes: empty global lists, gIndexBase 0. -/
def initialMeshLoadState : MeshLoadState := ⟨0, [], 0, []⟩

/-- Scene::loadMeshes consolidation over the imported mesh list. -/
def loadMeshes (ms : List ImportedMesh) : MeshLoadState :=
  loadMeshesFrom initialMeshLoadState ms

/-- Number of indices contributed to the global index buffer by the whole
model (3 per face). -/
def totalIndexCount (ms : List ImportedMesh) : Nat :=
  (ms.map (fun m => 3 * m.faces.length)).sum

/-- Number of vertices contributed to the global vertex buffer by the
whole model. -/
def totalVertexCount (ms : List ImportedMesh) : Nat :=
  (ms.map (fun m => m.numVertices)).sum

/-- Well-formedness of an imported mesh: every face index refers to one of
the mesh's own vertices. -/
def meshLocalIndicesValid (m : ImportedMesh) : Bool :=
  m.faces.all (fun f =>
    decide (f.i0 < m.numVertices) && decide (f.i1 < m.numVertices)
      && decide (f.i2 < m.numVertices))

/-- Global index list as the specification describes it: each mesh's local
indices offset by the count of vertices appended from earlier meshes
(exact arithmetic).  Used to compare the consolidation result against the
specification. -/
def globalIndicesPerSpec (vertexBase : Nat) : List ImportedMesh → List Nat
  | [] => []
  | m :: rest =>
    m.faces.flatMap (fun f => [f.i0 + vertexBase, f.i1 + vertexBase, f.i2 + vertexBase])
    ++ globalIndicesPerSpec (vertexBase + m.numVertices) rest

/-- Closed form of the produced mesh records (exact arithmetic): indexBase
accumulates 3 per face from a starting offset; used in proofs. -/
def outMeshesFrom (indexBase dsBase : Nat) : List ImportedMesh → List SceneMeshM
  | [] => []
  | m :: rest =>
    { indexCount := 3 * m.faces.length
      indexBase := indexBase
      materialIndex := m.materialIndex
      descriptorSet := dsBase }
    :: outMeshesFrom (indexBase + 3 * m.faces.length) (dsBase + 1) rest

/-! ## Material import (Scene::loadMaterials, lines 282-393)

The texture registry (resources.textures) is threaded through the calls;
loading a texture produces a fresh handle (nextHandle) and logs the
registry key it was loaded under, so texture-load duplication can be
stated.  addTexture2D loads the file and stores the handle under the given
name (TextureList::addTexture2D, lines 136-142). -/

/-- Imported (parser-side) description of one material: the optional file
path of each texture channel that the loop queries (diffuse, height/bump,
ambient/roughness, specular/metalness) and whether an opacity channel is
declared. -/
structure ImportedMaterial where
  name : String
  diffusePath : Option String
  bumpPath : Option String
  roughnessPath : Option String
  metallicPath : Option String
  hasOpacity : Bool
deriving DecidableEq

instance : Inhabited ImportedMaterial := ⟨⟨"", none, none, none, none, false⟩⟩

/-- Texture registry together with the loader: fresh handle counter and
the log of registry keys texture loads were performed for. -/
structure TexState where
  textures : Registry Nat
  nextHandle : Nat
  loadLog : List String

/-- TextureList::addTexture2D(name, filename, format): loads the texture
(fresh handle), stores it under name, returns it. -/
def addTexture2D (ts : TexState) (name : String) : Nat × TexState :=
  (ts.nextHandle,
   { textures := ts.textures.store name ts.nextHandle
     nextHandle := ts.nextHandle + 1
     loadLog := ts.loadLog ++ [name] })

/-- resources.textures->get(name) with the registry state threaded. -/
def texGet (ts : TexState) (name : String) : Nat × TexState :=
  let r := ts.textures.get name
  (r.1, { ts with textures := r.2 })

/-- Backslash-to-slash normalization applied to every texture file name
(std::replace of the path separators). -/
def normalizePath (p : String) : String :=
  p.map (fun c => if c = '\\' then '/' else c)

/-- The shared resolve pattern of every texture channel: normalize the
path; if no texture of that name is present, load and insert it, else
reuse the stored one. -/
def resolveTexture (ts : TexState) (rawPath : String) : Nat × TexState :=
  let fileName := normalizePath rawPath
  if ts.textures.isPresent fileName then texGet ts fileName
  else addTexture2D ts fileName

/-- Texture channel with a dummy fallback (the diffuse and bump blocks of
the loop): when the imported material declares a texture, resolve it
(setting the has-channel flag), otherwise fetch the shared dummy texture
(flag stays false). -/
def resolveChannel (ts : TexState) (path : Option String) (dummyName : String) :
    Nat × Bool × TexState :=
  match path with
  | some p => let x := resolveTexture ts p; (x.1, true, x.2)
  | none => let x := texGet ts dummyName; (x.1, false, x.2)

/-- Texture channel that overrides an already-fetched default (the
ambient/roughness and specular/metalness blocks): when the imported
material declares a texture, resolve it (setting the flag), otherwise keep
the previously fetched fallback handle without touching the registry. -/
def resolveOverride (ts : TexState) (path : Option String) (fallback : Nat) :
    Nat × Bool × TexState :=
  match path with
  | some p => let x := resolveTexture ts p; (x.1, true, x.2)
  | none => (fallback, false, ts)

/-- Processing of one material inside the loadMaterials loop, in source
order: the diffuse channel (dummy.diffuse fallback, the has flag is not
recorded for diffuse), the dummy.specular and dialectric.metallic
defaults, the bump channel (dummy.bump fallback), the ambient channel
overriding roughness, the specular channel overriding metallic, the
opacity flag, and the scene.solid pipeline (passed in as scenePipeline,
resolved once from the pipeline registry). -/
def processMaterial (ts : TexState) (scenePipeline : Nat)
    (im : ImportedMaterial) : SceneMaterialM × TexState :=
  let d := resolveChannel ts im.diffusePath "dummy.diffuse"
  let r0 := texGet d.2.2 "dummy.specular"
  let m0 := texGet r0.2 "dialectric.metallic"
  let b := resolveChannel m0.2 im.bumpPath "dummy.bump"
  let r := resolveOverride b.2.2 im.roughnessPath r0.1
  let m := resolveOverride r.2.2 im.metallicPath m0.1
  ({ name := im.name
     diffuse := d.1
     roughness := r.1
     metallic := m.1
     bump := b.1
     hasAlpha := im.hasOpacity
     hasBump := b.2.1
     hasRoughness := r.2.1
     hasMetaliness := m.2.1
     pipeline := scenePipeline }, m.2.2)

/-- The material loop over the imported material list. -/
def loadMaterialsFrom (ts : TexState) (scenePipeline : Nat) :
    List ImportedMaterial → List SceneMaterialM × TexState
  | [] => ([], ts)
  | im :: rest =>
    let x := processMaterial ts scenePipeline im
    let y := loadMaterialsFrom x.2 scenePipeline rest
    (x.1 :: y.1, y.2)

/-- Scene::loadMaterials: first the four unconditional dummy texture
loads (lines 285-288), then the material loop. -/
def loadMaterials (ts : TexState) (scenePipeline : Nat)
    (ims : List ImportedMaterial) : List SceneMaterialM × TexState :=
  let a := addTexture2D ts "dummy.diffuse"
  let b := addTexture2D a.2 "dummy.specular"
  let c := addTexture2D b.2 "dummy.bump"
  let d := addTexture2D c.2 "dialectric.metallic"
  loadMaterialsFrom d.2 scenePipeline ims

/-- Key under which a material's diffuse texture ends up stored in the
registry. -/
def diffuseKey (im : ImportedMaterial) : String :=
  match im.diffusePath with
  | some p => normalizePath p
  | none => "dummy.diffuse"

/-! ## Scene load (Scene::load, lines 817-848)

The importer result is an Option: some model on success, none on failure
(aScene null).  On success load runs loadMaterials and loadMeshes (which
also creates the global buffers, the descriptor pool and one descriptor
set per mesh); on failure it prints the error including the parser's
error string and returns, leaving every member untouched.  The third
result component is the error output. -/

/-- Result of a successful import: the material and mesh lists of the
parsed model. -/
structure ImportedModel where
  materials : List ImportedMaterial
  meshes : List ImportedMesh

/-- Observable state of a Scene object. -/
structure SceneState where
  materials : List SceneMaterialM
  meshes : List SceneMeshM
  vertexBufferCreated : Bool
  indexBufferCreated : Bool
  descriptorPoolCreated : Bool
  descriptorSetCount : Nat
deriving DecidableEq

/-- State of a freshly constructed Scene: empty vectors, no GPU objects. -/
def initialSceneState : SceneState := ⟨[], [], false, false, false, 0⟩

/-- Scene::load on an importer result.  errString stands for
Importer.GetErrorString(). -/
def sceneLoad (imported : Option ImportedModel) (filename errString : String)
    (scenePipeline : Nat) (st : SceneState) (ts : TexState) :
    SceneState × TexState × List String :=
  match imported with
  | some model =>
    let mats := loadMaterials ts scenePipeline model.materials
    let ml := loadMeshes model.meshes
    ({ materials := mats.1
       meshes := ml.outMeshes
       vertexBufferCreated := true
       indexBufferCreated := true
       descriptorPoolCreated := true
       descriptorSetCount := ml.outMeshes.length }, mats.2, [])
  | none =>
    (st, ts, ["Error parsing " ++ filename ++ ": " ++ errString])

/-! ## Invariants used in the material import proofs -/

/-- Entries once stored in the texture registry survive a computation step
(no overwrite, no removal). -/
def TexPreserves (a b : TexState) : Prop :=
  ∀ k v, a.textures.lookup k = some v → b.textures.lookup k = some v

/-- The load log is duplicate free and every logged key is present in the
registry. -/
def TexLogWf (a : TexState) : Prop :=
  a.loadLog.Nodup ∧ ∀ n ∈ a.loadLog, (a.textures.lookup n).isSome = true

/-! ## Registry lemmas -/

theorem Registry.lookup_store_self {H : Type} (r : Registry H) (n : String) (h : H) :
    (r.store n h).lookup n = some h := by
  simp [Registry.store, Registry.lookup]

theorem find?_filter_ne {H : Type} (l : List (String × H)) (k n : String) (hkn : k ≠ n) :
    (l.filter (fun e => ! (e.1 == n))).find? (fun e => e.1 == k)
      = l.find? (fun e => e.1 == k) := by
  induction l with
  | nil => rfl
  | cons e rest ih =>
    by_cases hek : e.1 = k
    · have hen : (e.1 == n) = false :=
        beq_false_of_ne (fun he => hkn (hek.symm.trans he))
      have hkb : (e.1 == k) = true := by simp [hek]
      simp [List.filter_cons, List.find?_cons, hen, hkb]
    · have hekb : (e.1 == k) = false := beq_false_of_ne hek
      by_cases hen : e.1 = n
      · have henb : (e.1 == n) = true := by simp [hen]
        simp [List.filter_cons, List.find?_cons, henb, hekb, ih]
      · have henb : (e.1 == n) = false := beq_false_of_ne hen
        simp [List.filter_cons, List.find?_cons, henb, hekb, ih]

theorem Registry.lookup_store_ne {H : Type} (r : Registry H) (k n : String) (h : H)
    (hkn : k ≠ n) : (r.store n h).lookup k = r.lookup k := by
  have hnk : (n == k) = false := beq_false_of_ne (fun he => hkn he.symm)
  simp only [Registry.store, Registry.lookup]
  rw [List.find?_cons]
  simp only [hnk]
  rw [find?_filter_ne r.entries k n hkn]

theorem Registry.get_fst {H : Type} [Inhabited H] (r : Registry H) (n : String) :
    (r.get n).1 = (r.lookup n).getD default := by
  unfold Registry.get
  cases h : r.lookup n <;> simp

theorem Registry.get_snd_lookup_self {H : Type} [Inhabited H] (r : Registry H) (n : String) :
    (r.get n).2.lookup n = some ((r.lookup n).getD default) := by
  unfold Registry.get
  cases h : r.lookup n with
  | none =>
    simp only [Registry.lookup]
    rw [List.find?_cons]
    simp
  | some v => simpa using h

theorem Registry.get_snd_lookup_ne {H : Type} [Inhabited H] (r : Registry H) (k n : String)
    (hkn : k ≠ n) : (r.get n).2.lookup k = r.lookup k := by
  have hnk : (n == k) = false := beq_false_of_ne (fun he => hkn he.symm)
  unfold Registry.get
  cases h : r.lookup n with
  | none =>
    conv_lhs => simp only [Registry.lookup]
    rw [List.find?_cons]
    simp only [hnk]
    rfl
  | some v => simp

theorem Registry.mem_teardown_of_lookup {H : Type} (r : Registry H) (n : String) (v : H)
    (hl : r.lookup n = some v) : v ∈ r.teardown := by
  unfold Registry.lookup at hl
  cases hf : r.entries.find? (fun e => e.1 == n) with
  | none => rw [hf] at hl; cases hl
  | some e =>
    rw [hf] at hl
    have hmem : e ∈ r.entries := List.mem_of_find?_eq_some hf
    have hv : e.2 = v := by simpa using hl
    exact hv ▸ List.mem_map_of_mem (fun x => x.2) hmem

/-! ## C1: per-frame submission chain -/

/-- Claim C1: in every call to draw() the queue submissions form a single
linear chain: shadow submission 0 waits on the present-complete semaphore;
shadow submission i (0 < i < NUM_LIGHTS) waits on
shadowmapPass[i-1].semaphore and signals shadowmapPass[i].semaphore; the
deferred (geometry) submission waits on shadowmapPass[NUM_LIGHTS-1]'s
semaphore and signals deferredSemaphore; the composition submission waits
on deferredSemaphore and signals the render-complete semaphore; and no
submission waits on or signals more than one semaphore. -/
theorem draw_submission_chain :
    (drawSubmissions NUM_LIGHTS).length = NUM_LIGHTS + 2 ∧
    (drawSubmissions NUM_LIGHTS)[0]?
      = some ⟨[Sem.presentComplete], [Sem.shadow 0], [CmdBuf.shadowmap 0]⟩ ∧
    (∀ i < NUM_LIGHTS, 0 < i →
      (drawSubmissions NUM_LIGHTS)[i]?
        = some ⟨[Sem.shadow (i - 1)], [Sem.shadow i], [CmdBuf.shadowmap i]⟩) ∧
    (drawSubmissions NUM_LIGHTS)[NUM_LIGHTS]?
      = some ⟨[Sem.shadow (NUM_LIGHTS - 1)], [Sem.deferred], [CmdBuf.deferredCmd]⟩ ∧
    (drawSubmissions NUM_LIGHTS)[NUM_LIGHTS + 1]?
      = some ⟨[Sem.deferred], [Sem.renderComplete], [CmdBuf.composition]⟩ ∧
    (∀ s ∈ drawSubmissions NUM_LIGHTS,
      s.waitSems.length = 1 ∧ s.signalSems.length = 1) := by
  decide

/-! ## C9: shadow render pass creation count -/

/-- Claim C9 (code bug): preparing the shadow-map passes is claimed to
create exactly one render pass per light (NUM_LIGHTS creations), but
prepareShadowmapFramebuffer invokes prepareShadowmapRenderpass — which
itself loops over every light — once per light, so NUM_LIGHTS * NUM_LIGHTS
= 9 render passes are created (and all but the last written handle per
slot leak). -/
theorem shadowmap_renderpass_creation_count :
    ((prepareShadowmapFramebufferEvents NUM_LIGHTS).filter
        PrepEvent.isRenderPassCreation).length = NUM_LIGHTS * NUM_LIGHTS ∧
    ¬ ((prepareShadowmapFramebufferEvents NUM_LIGHTS).filter
        PrepEvent.isRenderPassCreation).length = NUM_LIGHTS := by
  decide

/-! ## C6: load failure leaves the scene empty -/

/-- Claim C6: if the importer returns no scene, Scene::load reports the
error (with the parser's error string) and returns with the scene state
unchanged; in particular, loading into a freshly constructed scene leaves
the material and mesh lists empty and creates no global buffers, no
descriptor pool and no descriptor sets. -/
theorem scene_load_failure_leaves_empty (filename errString : String)
    (scenePipeline : Nat) (st : SceneState) (ts : TexState) :
    sceneLoad none filename errString scenePipeline st ts
      = (st, ts, ["Error parsing " ++ filename ++ ": " ++ errString]) ∧
    initialSceneState.materials = [] ∧
    initialSceneState.meshes = [] ∧
    initialSceneState.vertexBufferCreated = false ∧
    initialSceneState.indexBufferCreated = false ∧
    initialSceneState.descriptorPoolCreated = false ∧
    initialSceneState.descriptorSetCount = 0 :=
  ⟨rfl, rfl, rfl, rfl, rfl, rfl, rfl⟩

/-! ## C3: registry present/get contract -/

/-- Claim C3 counterexample: present(name) is not always false before
add(name, ...) has been called — a single get on an absent name (which
default-inserts through operator[]) makes present return true although the
trace contains no add at all. -/
theorem registry_present_before_add_cex :
    (runRegOps (emptyRegistry Nat) [RegOp.get "x"]).isPresent "x" = true ∧
    ([RegOp.get "x"] : List (RegOp Nat)).all (fun op => ! op.isAdd) = true := by
  decide

theorem lookup_runRegOps {H : Type} [Inhabited H] (ops : List (RegOp H)) :
    ∀ (r : Registry H) (name : String),
      (runRegOps r ops).lookup name =
        match lastAdded ops name with
        | some h => some h
        | none =>
          if ops.any (fun op => op.name == name) then some ((r.lookup name).getD default)
          else r.lookup name := by
  induction ops with
  | nil => intro r name; simp [runRegOps, lastAdded]
  | cons op rest ih =>
    intro r name
    cases op with
    | add m h =>
      show (runRegOps (r.store m h) rest).lookup name = _
      rw [ih (r.store m h) name]
      cases hla : lastAdded rest name with
      | some h2 => simp [lastAdded, hla]
      | none =>
        by_cases hmn : m = name
        · subst hmn
          simp [lastAdded, hla, Registry.lookup_store_self, RegOp.name, List.any_cons]
        · have hnm : name ≠ m := fun he => hmn he.symm
          simp [lastAdded, hla, hmn, Registry.lookup_store_ne r name m h hnm,
            RegOp.name, List.any_cons]
    | get m =>
      show (runRegOps (r.get m).2 rest).lookup name = _
      rw [ih (r.get m).2 name]
      cases hla : lastAdded rest name with
      | some h2 => simp [lastAdded, hla]
      | none =>
        by_cases hmn : m = name
        · subst hmn
          rw [Registry.get_snd_lookup_self]
          simp [lastAdded, hla, RegOp.name, List.any_cons]
        · have hnm : name ≠ m := fun he => hmn he.symm
          rw [Registry.get_snd_lookup_ne r name m hnm]
          simp [lastAdded, hla, hmn, RegOp.name, List.any_cons]
    | getPtr m =>
      show (runRegOps (r.getPtr m).2 rest).lookup name = _
      rw [show (r.getPtr m).2 = (r.get m).2 from rfl, ih (r.get m).2 name]
      cases hla : lastAdded rest name with
      | some h2 => simp [lastAdded, hla]
      | none =>
        by_cases hmn : m = name
        · subst hmn
          rw [Registry.get_snd_lookup_self]
          simp [lastAdded, hla, RegOp.name, List.any_cons]
        · have hnm : name ≠ m := fun he => hmn he.symm
          rw [Registry.get_snd_lookup_ne r name m hnm]
          simp [lastAdded, hla, hmn, RegOp.name, List.any_cons]

theorem lastAdded_isSome_any {H : Type} (ops : List (RegOp H)) (name : String)
    (hla : (lastAdded ops name).isSome = true) :
    ops.any (fun op => op.name == name) = true := by
  induction ops with
  | nil => simp [lastAdded] at hla
  | cons op rest ih =>
    cases op with
    | add m h2 =>
      rw [show lastAdded (RegOp.add m h2 :: rest) name
          = (match lastAdded rest name with
             | some x => some x
             | none => if m = name then some h2 else none) from rfl] at hla
      cases hrest : lastAdded rest name with
      | some x =>
        have : rest.any (fun op => op.name == name) = true := by
          apply ih; simp [hrest]
        simp [List.any_cons, this]
      | none =>
        rw [hrest] at hla
        by_cases hmn : m = name
        · simp [List.any_cons, RegOp.name, hmn]
        · simp [hmn] at hla
    | get m =>
      have : rest.any (fun op => op.name == name) = true := by
        apply ih; simpa [lastAdded] using hla
      simp [List.any_cons, this]
    | getPtr m =>
      have : rest.any (fun op => op.name == name) = true := by
        apply ih; simpa [lastAdded] using hla
      simp [List.any_cons, this]

/-- Claim C3 amended: for every registry trace (over add, get and getPtr
operations starting from a fresh registry), present(name) is true exactly
when some operation has touched that name (an add, or an operator[]
insertion through get/getPtr); and get(name) returns the handle most
recently stored by add under name — or the default (null) handle if no
add with that name occurred — never raising an exception. -/
theorem registry_present_get_amended {H : Type} [Inhabited H] [DecidableEq H]
    (ops : List (RegOp H)) (name : String) :
    ((runRegOps (emptyRegistry H) ops).isPresent name
        = ops.any (fun op => op.name == name)) ∧
    ((runRegOps (emptyRegistry H) ops).get name).1
        = (lastAdded ops name).getD default := by
  have hempty : (emptyRegistry H).lookup name = none := rfl
  have hchar := lookup_runRegOps ops (emptyRegistry H) name
  rw [hempty] at hchar
  constructor
  · unfold Registry.isPresent
    rw [hchar]
    cases hla : lastAdded ops name with
    | some h =>
      have hany := lastAdded_isSome_any ops name (by simp [hla])
      simp [hany]
    | none =>
      by_cases hany : ops.any (fun op => op.name == name) = true
      · simp [hany]
      · simp [hany]
  · rw [Registry.get_fst, hchar]
    cases hla : lastAdded ops name with
    | some h => simp
    | none =>
      by_cases hany : ops.any (fun op => op.name == name) = true
      · simp [hany]
      · simp [hany]

/-! ## C10: operator[] insertion through get/getPtr -/

/-- Claim C10: calling get(name) or getPtr(name) on a registry in which
name is absent inserts a default-constructed (null) handle under that
name and returns it; a subsequent present(name) returns true although no
add stored a handle, and the inserted null handle is among the handles the
registry destructor passes to the type-specific destroy call. -/
theorem registry_get_inserts_default {H : Type} [Inhabited H] (r : Registry H)
    (name : String) (habs : r.isPresent name = false) :
    (r.get name).1 = default ∧
    (r.get name).2.lookup name = some (default : H) ∧
    (r.get name).2.isPresent name = true ∧
    (default : H) ∈ (r.get name).2.teardown ∧
    (r.getPtr name).1 = default ∧
    (r.getPtr name).2 = (r.get name).2 := by
  have hnone : r.lookup name = none := by
    unfold Registry.isPresent at habs
    cases h : r.lookup name with
    | none => rfl
    | some v => rw [h] at habs; simp at habs
  have hself : (r.get name).2.lookup name = some (default : H) := by
    rw [Registry.get_snd_lookup_self, hnone]; rfl
  refine ⟨?_, hself, ?_, ?_, ?_, rfl⟩
  · rw [Registry.get_fst, hnone]; rfl
  · unfold Registry.isPresent
    rw [hself]; rfl
  · exact Registry.mem_teardown_of_lookup _ name default hself
  · rw [show (r.getPtr name).1 = (r.get name).1 from rfl, Registry.get_fst, hnone]; rfl

/-- Witness for C10 at a concrete input: the absent name
composition.ssao.enabled that preparePipelines (line 1987) passes to
resources.pipelines->get before any add under that name. -/
theorem registry_get_inserts_default_witness :
    ((emptyRegistry Nat).get "composition.ssao.enabled").1 = default ∧
    ((emptyRegistry Nat).get "composition.ssao.enabled").2.lookup
        "composition.ssao.enabled" = some (default : Nat) ∧
    ((emptyRegistry Nat).get "composition.ssao.enabled").2.isPresent
        "composition.ssao.enabled" = true ∧
    (default : Nat) ∈ ((emptyRegistry Nat).get "composition.ssao.enabled").2.teardown ∧
    ((emptyRegistry Nat).getPtr "composition.ssao.enabled").1 = default ∧
    ((emptyRegistry Nat).getPtr "composition.ssao.enabled").2
      = ((emptyRegistry Nat).get "composition.ssao.enabled").2 :=
  registry_get_inserts_default (emptyRegistry Nat) "composition.ssao.enabled" (by decide)

/-! ## C8: memory type selection -/

theorem memTypeLoop_finds (memTypes : Nat → Nat) (properties : Nat) :
    ∀ (fuel typeBits i : Nat),
      (∃ j, j < fuel ∧ typeBits.testBit j = true
        ∧ Nat.land (memTypes (i + j)) properties = properties) →
      ∃ j, j < fuel ∧ typeBits.testBit j = true
        ∧ Nat.land (memTypes (i + j)) properties = properties
        ∧ memTypeLoop memTypes properties fuel typeBits i = i + j
        ∧ ∀ k, k < j → ¬ (typeBits.testBit k = true
            ∧ Nat.land (memTypes (i + k)) properties = properties) := by
  intro fuel
  induction fuel with
  | zero =>
    intro typeBits i h
    obtain ⟨j, hj, _⟩ := h
    exact absurd hj (Nat.not_lt_zero j)
  | succ fuel ih =>
    intro typeBits i h
    by_cases hc : typeBits % 2 = 1 ∧ Nat.land (memTypes i) properties = properties
    · refine ⟨0, Nat.succ_pos fuel, ?_, ?_, ?_, ?_⟩
      · rw [Nat.testBit_zero]; simp [hc.1]
      · simpa using hc.2
      · show memTypeLoop memTypes properties (fuel + 1) typeBits i = i + 0
        simp only [memTypeLoop, if_pos hc]
        omega
      · intro k hk; omega
    · obtain ⟨j, hj, htb, hld⟩ := h
      have hj0 : j ≠ 0 := by
        intro h0
        subst h0
        apply hc
        refine ⟨?_, by simpa using hld⟩
        have := htb
        rw [Nat.testBit_zero] at this
        simpa using this
      obtain ⟨j', rfl⟩ : ∃ j2, j = j2 + 1 := ⟨j - 1, by omega⟩
      have hrec := ih (typeBits / 2) (i + 1)
        ⟨j', by omega, by rw [← Nat.testBit_add_one]; exact htb,
          by rw [show i + 1 + j' = i + (j' + 1) by omega]; exact hld⟩
      obtain ⟨j2, hj2lt, hj2tb, hj2ld, hj2eq, hj2min⟩ := hrec
      refine ⟨j2 + 1, by omega, ?_, ?_, ?_, ?_⟩
      · rw [Nat.testBit_add_one]; exact hj2tb
      · rw [show i + (j2 + 1) = i + 1 + j2 by omega]; exact hj2ld
      · show memTypeLoop memTypes properties (fuel + 1) typeBits i = _
        simp only [memTypeLoop, if_neg hc]
        rw [hj2eq]
        omega
      · intro k hk
        cases k with
        | zero =>
          intro hcon
          apply hc
          refine ⟨?_, by simpa using hcon.2⟩
          have := hcon.1
          rw [Nat.testBit_zero] at this
          simpa using this
        | succ k2 =>
          intro hcon
          apply hj2min k2 (by omega)
          refine ⟨by rw [← Nat.testBit_add_one]; exact hcon.1, ?_⟩
          rw [show i + 1 + k2 = i + (k2 + 1) by omega]
          exact hcon.2

/-- Claim C8 counterexample: with every memory type having propertyFlags
0, typeBits = 1 and properties = 1, no memory type satisfies the request
and getMemTypeIndex falls through to return 0, an index whose
propertyFlags do not contain the requested properties; so the helper does
not, for every pair of arguments, return a satisfying index. -/
theorem getMemTypeIndex_no_match_cex :
    getMemTypeIndex (fun _ => 0) 1 1 = 0 ∧
    ¬ Nat.land ((fun _ => 0 : Nat → Nat) (getMemTypeIndex (fun _ => 0) 1 1)) 1 = 1 := by
  decide

/-- Claim C8 amended: whenever at least one index below 32 has its
typeBits bit set and propertyFlags containing every requested property
bit, getMemTypeIndex returns the lowest such index (in particular an
index below 32 that has its typeBits bit set and satisfies the property
mask); without such an index it falls through to 0. -/
theorem getMemTypeIndex_least_satisfying (memTypes : Nat → Nat)
    (typeBits properties : Nat)
    (hex : ∃ j, j < 32 ∧ typeBits.testBit j = true
      ∧ Nat.land (memTypes j) properties = properties) :
    getMemTypeIndex memTypes typeBits properties < 32 ∧
    typeBits.testBit (getMemTypeIndex memTypes typeBits properties) = true ∧
    Nat.land (memTypes (getMemTypeIndex memTypes typeBits properties)) properties
      = properties ∧
    ∀ k, k < getMemTypeIndex memTypes typeBits properties →
      ¬ (typeBits.testBit k = true ∧ Nat.land (memTypes k) properties = properties) := by
  obtain ⟨j, hj, htb, hld⟩ := hex
  obtain ⟨j2, hlt, htb2, hld2, heq, hmin⟩ :=
    memTypeLoop_finds memTypes properties 32 typeBits 0
      ⟨j, hj, htb, by simpa using hld⟩
  unfold getMemTypeIndex
  rw [heq]
  refine ⟨by omega, by simpa using htb2, by simpa using hld2, ?_⟩
  intro k hk hcon
  exact hmin k (by omega) ⟨hcon.1, by simpa using hcon.2⟩

/-- Witness for C8 at a concrete input: typeBits 12 (bits 2 and 3),
properties 5, every memory type reporting propertyFlags 7; the least
satisfying index is selected. -/
theorem getMemTypeIndex_least_satisfying_witness :
    getMemTypeIndex (fun _ => 7) 12 5 < 32 ∧
    Nat.testBit 12 (getMemTypeIndex (fun _ => 7) 12 5) = true ∧
    Nat.land ((fun _ => 7 : Nat → Nat) (getMemTypeIndex (fun _ => 7) 12 5)) 5 = 5 ∧
    (∀ k, k < getMemTypeIndex (fun _ => 7) 12 5 →
      ¬ (Nat.testBit 12 k = true
        ∧ Nat.land ((fun _ => 7 : Nat → Nat) k) 5 = 5)) :=
  getMemTypeIndex_least_satisfying (fun _ => 7) 12 5 ⟨2, by decide, by decide, by decide⟩

/-! ## C4 and C5: recorded command buffer contents -/

theorem flatMap_if_skip {α β : Type} (p : α → Bool) (g : α → List β) (l : List α) :
    l.flatMap (fun a => if p a then [] else g a)
      = (l.filter (fun a => ! p a)).flatMap g := by
  induction l with
  | nil => rfl
  | cons a rest ih =>
    by_cases hp : p a = true <;>
      simp [List.flatMap_cons, List.filter_cons, hp, ih]

theorem flatMap_if_keep {α β : Type} (p : α → Bool) (g : α → List β) (l : List α) :
    l.flatMap (fun a => if p a then g a else [])
      = (l.filter p).flatMap g := by
  induction l with
  | nil => rfl
  | cons a rest ih =>
    by_cases hp : p a = true <;>
      simp [List.flatMap_cons, List.filter_cons, hp, ih]

theorem filterMap_flatMap {α β γ : Type} (l : List α) (g : α → List β) (f : β → Option γ) :
    (l.flatMap g).filterMap f = l.flatMap (fun a => (g a).filterMap f) := by
  induction l with
  | nil => rfl
  | cons a rest ih => simp [List.flatMap_cons, List.filterMap_append, ih]

theorem filterMap_draw_pairs (l : List SceneMeshM) :
    (l.flatMap (fun m => [Cmd.bindDescriptorSets m.descriptorSet,
        Cmd.drawIndexed m.indexCount 1 0 m.indexBase 0])).filterMap Cmd.drawArgs
      = l.map (fun m => (m.indexCount, 1, 0, m.indexBase, 0)) := by
  induction l with
  | nil => rfl
  | cons m rest ih => simp [List.flatMap_cons, List.filterMap_append, ih, Cmd.drawArgs]

theorem filterMap_draw_singles (l : List SceneMeshM) :
    (l.flatMap (fun m =>
        [Cmd.drawIndexed m.indexCount 1 0 m.indexBase 0])).filterMap Cmd.drawArgs
      = l.map (fun m => (m.indexCount, 1, 0, m.indexBase, 0)) := by
  induction l with
  | nil => rfl
  | cons m rest ih => simp [List.flatMap_cons, List.filterMap_append, ih, Cmd.drawArgs]

/-- Claim C4: for every light i, the recorded shadow-pass command buffer
contains exactly one indexed draw — carrying that mesh's indexCount and
indexBase into the global buffers — per scene mesh whose material has
hasAlpha false (in scene order), and no draw for any mesh whose material
has hasAlpha true; the light index i is recorded as a push constant
before every draw, and the offscreen vertex shader selects light-space
matrix pushConsts.lightIdx = i. -/
theorem shadowmap_cmd_draws (materials : List SceneMaterialM)
    (meshes : List SceneMeshM) (shadowmapDS i : Nat) :
    drawsOf (buildShadowmapCmds materials meshes shadowmapDS i)
      = (meshes.filter (fun m => ! meshHasAlpha materials m)).map
          (fun m => (m.indexCount, 1, 0, m.indexBase, 0)) ∧
    (∃ p q, buildShadowmapCmds materials meshes shadowmapDS i
        = p ++ Cmd.pushConstants i :: q
      ∧ p.all (fun c => c.drawArgs.isNone) = true) ∧
    offscreenVertMatrixIndex i = i := by
  refine ⟨?_, ?_, rfl⟩
  · unfold buildShadowmapCmds drawsOf
    rw [flatMap_if_skip (fun m => meshHasAlpha materials m)
      (fun m => [Cmd.drawIndexed m.indexCount 1 0 m.indexBase 0]) meshes]
    simp [List.filterMap_append, Cmd.drawArgs, filterMap_draw_singles]
  · refine ⟨[Cmd.setViewport, Cmd.setScissor, Cmd.setDepthBias,
      Cmd.beginRenderPass ("shadowmap." ++ toString i),
      Cmd.bindPipeline "shadowmap", Cmd.bindDescriptorSets shadowmapDS],
      Cmd.bindVertexBuffers "scene.globalVertexBuffer"
        :: Cmd.bindIndexBuffer "scene.globalIndexBuffer"
        :: (meshes.flatMap (fun m =>
              if meshHasAlpha materials m then []
              else [Cmd.drawIndexed m.indexCount 1 0 m.indexBase 0])
            ++ [Cmd.endRenderPass]), rfl, rfl⟩

/-- Claim C5: the deferred (G-buffer) command buffer records, in order,
the skysphere (its own pipeline, descriptor set, buffers and one draw),
then — on the scene.solid pipeline — one draw per scene mesh with
hasAlpha false in scene order, then — on the scene.blend pipeline — one
draw per scene mesh with hasAlpha true in scene order, and every scene
mesh draw is immediately preceded by binding that mesh's own descriptor
set; correspondingly the draw sequence is the skysphere draw, the opaque
mesh draws, then the alpha mesh draws. -/
theorem deferred_cmd_order (materials : List SceneMaterialM)
    (meshes : List SceneMeshM) (skysphereDS skysphereIndexCount : Nat) :
    buildDeferredCmds materials meshes skysphereDS skysphereIndexCount
      = [Cmd.beginRenderPass "offscreen", Cmd.setViewport, Cmd.setScissor,
         Cmd.bindPipeline "skysphere", Cmd.bindDescriptorSets skysphereDS,
         Cmd.bindVertexBuffers "skysphere", Cmd.bindIndexBuffer "skysphere",
         Cmd.drawIndexed skysphereIndexCount 1 0 0 0,
         Cmd.bindPipeline "scene.solid",
         Cmd.bindVertexBuffers "scene.globalVertexBuffer",
         Cmd.bindIndexBuffer "scene.globalIndexBuffer"]
        ++ (meshes.filter (fun m => ! meshHasAlpha materials m)).flatMap
            (fun m => [Cmd.bindDescriptorSets m.descriptorSet,
                       Cmd.drawIndexed m.indexCount 1 0 m.indexBase 0])
        ++ [Cmd.bindPipeline "scene.blend"]
        ++ (meshes.filter (fun m => meshHasAlpha materials m)).flatMap
            (fun m => [Cmd.bindDescriptorSets m.descriptorSet,
                       Cmd.drawIndexed m.indexCount 1 0 m.indexBase 0])
        ++ [Cmd.endRenderPass] ∧
    drawsOf (buildDeferredCmds materials meshes skysphereDS skysphereIndexCount)
      = (skysphereIndexCount, 1, 0, 0, 0)
        :: ((meshes.filter (fun m => ! meshHasAlpha materials m)).map
              (fun m => (m.indexCount, 1, 0, m.indexBase, 0))
            ++ (meshes.filter (fun m => meshHasAlpha materials m)).map
              (fun m => (m.indexCount, 1, 0, m.indexBase, 0))) := by
  have hskip := flatMap_if_skip (fun m => meshHasAlpha materials m)
    (fun m => [Cmd.bindDescriptorSets m.descriptorSet,
               Cmd.drawIndexed m.indexCount 1 0 m.indexBase 0]) meshes
  have hkeep := flatMap_if_keep (fun m => meshHasAlpha materials m)
    (fun m => [Cmd.bindDescriptorSets m.descriptorSet,
               Cmd.drawIndexed m.indexCount 1 0 m.indexBase 0]) meshes
  constructor
  · unfold buildDeferredCmds
    rw [hskip, hkeep]
  · unfold buildDeferredCmds drawsOf
    rw [hskip, hkeep]
    simp [List.filterMap_append, Cmd.drawArgs, filterMap_draw_pairs]

/-! ## C2: mesh consolidation -/

theorem U32_pos : 0 < U32 := by norm_num [U32]

theorem totalIndexCount_cons (m : ImportedMesh) (ms : List ImportedMesh) :
    totalIndexCount (m :: ms) = 3 * m.faces.length + totalIndexCount ms := by
  simp [totalIndexCount]

theorem totalVertexCount_cons (m : ImportedMesh) (ms : List ImportedMesh) :
    totalVertexCount (m :: ms) = m.numVertices + totalVertexCount ms := by
  simp [totalVertexCount]

theorem meshIndices_length (vertexBase : Nat) (faces : List ImportedFace) :
    (meshIndices vertexBase faces).length = 3 * faces.length := by
  induction faces with
  | nil => rfl
  | cons f rest ih =>
    unfold meshIndices at ih ⊢
    rw [List.flatMap_cons, List.length_append, ih]
    simp
    omega

theorem meshIndices_exact (vertexBase n : Nat) (faces : List ImportedFace)
    (hval : ∀ f ∈ faces, f.i0 < n ∧ f.i1 < n ∧ f.i2 < n)
    (hbound : vertexBase + n ≤ U32) :
    meshIndices vertexBase faces
      = faces.flatMap (fun f =>
          [f.i0 + vertexBase, f.i1 + vertexBase, f.i2 + vertexBase]) := by
  induction faces with
  | nil => rfl
  | cons f rest ih =>
    have hf := hval f (List.mem_cons_self f rest)
    have h0 : f.i0 + vertexBase < U32 := by omega
    have h1 : f.i1 + vertexBase < U32 := by omega
    have h2 : f.i2 + vertexBase < U32 := by omega
    have htail := ih (fun g hg => hval g (List.mem_cons_of_mem f hg))
    unfold meshIndices at htail ⊢
    rw [List.flatMap_cons, List.flatMap_cons, htail,
      Nat.mod_eq_of_lt h0, Nat.mod_eq_of_lt h1, Nat.mod_eq_of_lt h2]

theorem bumpIndexBase_eq (faces : List ImportedFace) :
    ∀ g : Nat, g < U32 → bumpIndexBase g faces = (g + 3 * faces.length) % U32 := by
  induction faces with
  | nil =>
    intro g hg
    simp [bumpIndexBase, Nat.mod_eq_of_lt hg]
  | cons f rest ih =>
    intro g hg
    unfold bumpIndexBase at ih ⊢
    rw [List.foldl_cons, ih ((g + 3) % U32) (Nat.mod_lt _ U32_pos), Nat.mod_add_mod,
      List.length_cons]
    congr 1
    ring

theorem meshLocalIndicesValid_elim (m : ImportedMesh)
    (h : meshLocalIndicesValid m = true) :
    ∀ f ∈ m.faces, f.i0 < m.numVertices ∧ f.i1 < m.numVertices
      ∧ f.i2 < m.numVertices := by
  intro f hf
  unfold meshLocalIndicesValid at h
  rw [List.all_eq_true] at h
  have := h f hf
  simp at this
  exact ⟨this.1.1, this.1.2, this.2⟩

theorem loadMeshesFrom_spec :
    ∀ (ms : List ImportedMesh) (st : MeshLoadState),
      st.gIndexBase = st.gIndices.length →
      st.gIndices.length + totalIndexCount ms < U32 →
      st.gVertexCount + totalVertexCount ms < U32 →
      (∀ m ∈ ms, meshLocalIndicesValid m = true) →
      loadMeshesFrom st ms =
        { gVertexCount := st.gVertexCount + totalVertexCount ms
          gIndices := st.gIndices ++ globalIndicesPerSpec st.gVertexCount ms
          gIndexBase := st.gIndices.length + totalIndexCount ms
          outMeshes := st.outMeshes
            ++ outMeshesFrom st.gIndices.length st.outMeshes.length ms } := by
  intro ms
  induction ms with
  | nil =>
    intro st hinv _ _ _
    cases st with
    | mk a b c d =>
      simp only [loadMeshesFrom]
      simp [totalIndexCount, totalVertexCount, globalIndicesPerSpec, outMeshesFrom]
      simpa using hinv
  | cons m rest ih =>
    intro st hinv hbi hbv hval
    have hvm := meshLocalIndicesValid_elim m (hval m (List.mem_cons_self m rest))
    rw [totalIndexCount_cons] at hbi
    rw [totalVertexCount_cons] at hbv
    have hvb : st.gVertexCount % U32 = st.gVertexCount :=
      Nat.mod_eq_of_lt (by omega)
    have hmi : meshIndices (st.gVertexCount % U32) m.faces
        = m.faces.flatMap (fun f =>
            [f.i0 + st.gVertexCount, f.i1 + st.gVertexCount,
             f.i2 + st.gVertexCount]) := by
      rw [hvb]
      exact meshIndices_exact st.gVertexCount m.numVertices m.faces hvm (by omega)
    have hbump : bumpIndexBase st.gIndexBase m.faces
        = st.gIndices.length + 3 * m.faces.length := by
      rw [hinv, bumpIndexBase_eq m.faces st.gIndices.length (by omega)]
      exact Nat.mod_eq_of_lt (by omega)
    have hic : m.faces.length * 3 % U32 = 3 * m.faces.length := by
      rw [Nat.mul_comm]
      exact Nat.mod_eq_of_lt (by omega)
    have hlen : (stepMesh st m).gIndices.length
        = st.gIndices.length + 3 * m.faces.length := by
      show (st.gIndices ++ meshIndices (st.gVertexCount % U32) m.faces).length = _
      rw [List.length_append, meshIndices_length]
    have hrec := ih (stepMesh st m)
      (by show bumpIndexBase st.gIndexBase m.faces = _
          rw [hbump, hlen])
      (by rw [hlen]; omega)
      (by show st.gVertexCount + m.numVertices + totalVertexCount rest < U32
          omega)
      (fun m2 hm2 => hval m2 (List.mem_cons_of_mem m hm2))
    show loadMeshesFrom (stepMesh st m) rest = _
    rw [hrec]
    have houtlen : (stepMesh st m).outMeshes.length = st.outMeshes.length + 1 := by
      show (st.outMeshes ++ [_]).length = _
      rw [List.length_append]
      rfl
    simp only [MeshLoadState.mk.injEq]
    refine ⟨?_, ?_, ?_, ?_⟩
    · show st.gVertexCount + m.numVertices + totalVertexCount rest = _
      rw [totalVertexCount_cons]
      omega
    · show st.gIndices ++ meshIndices (st.gVertexCount % U32) m.faces
          ++ globalIndicesPerSpec (stepMesh st m).gVertexCount rest = _
      rw [List.append_assoc, hmi]
      show _ = st.gIndices ++ globalIndicesPerSpec st.gVertexCount (m :: rest)
      rfl
    · rw [hlen, totalIndexCount_cons]
      omega
    · show st.outMeshes
            ++ [{ indexCount := m.faces.length * 3 % U32
                  indexBase := st.gIndexBase
                  materialIndex := m.materialIndex
                  descriptorSet := st.outMeshes.length }]
            ++ outMeshesFrom (stepMesh st m).gIndices.length
                (stepMesh st m).outMeshes.length rest
          = st.outMeshes ++ outMeshesFrom st.gIndices.length st.outMeshes.length (m :: rest)
      rw [List.append_assoc, hlen, houtlen, hic, hinv, List.singleton_append]
      rfl

theorem outMeshesFrom_length (ms : List ImportedMesh) :
    ∀ a b : Nat, (outMeshesFrom a b ms).length = ms.length := by
  induction ms with
  | nil => intro a b; rfl
  | cons m rest ih =>
    intro a b
    unfold outMeshesFrom
    rw [List.length_cons, ih, List.length_cons]

theorem outMeshesFrom_getD (ms : List ImportedMesh) :
    ∀ (a b k : Nat), k < ms.length →
      (outMeshesFrom a b ms).getD k default
        = { indexCount := 3 * (ms.getD k default).faces.length
            indexBase := a + totalIndexCount (ms.take k)
            materialIndex := (ms.getD k default).materialIndex
            descriptorSet := b + k } := by
  induction ms with
  | nil =>
    intro a b k hk
    simp at hk
  | cons m rest ih =>
    intro a b k hk
    cases k with
    | zero =>
      simp [outMeshesFrom, totalIndexCount]
    | succ k2 =>
      have hk2 : k2 < rest.length := by simpa using Nat.lt_of_succ_lt_succ hk
      unfold outMeshesFrom
      rw [List.getD_cons_succ, List.getD_cons_succ, ih (a + 3 * m.faces.length) (b + 1) k2 hk2]
      rw [List.take_succ_cons, totalIndexCount_cons]
      congr 1 <;> omega

theorem totalIndexCount_take_le (ms : List ImportedMesh) :
    ∀ n : Nat, totalIndexCount (ms.take n) ≤ totalIndexCount ms := by
  induction ms with
  | nil => intro n; simp
  | cons m rest ih =>
    intro n
    cases n with
    | zero => simp [totalIndexCount]
    | succ n2 =>
      rw [List.take_succ_cons, totalIndexCount_cons, totalIndexCount_cons]
      have := ih n2
      omega

theorem totalIndexCount_take_succ (ms : List ImportedMesh) :
    ∀ k : Nat, k < ms.length →
      totalIndexCount (ms.take (k + 1))
        = totalIndexCount (ms.take k) + 3 * (ms.getD k default).faces.length := by
  induction ms with
  | nil => intro k hk; simp at hk
  | cons m rest ih =>
    intro k hk
    cases k with
    | zero =>
      simp [totalIndexCount]
    | succ k2 =>
      have hk2 : k2 < rest.length := by simpa using Nat.lt_of_succ_lt_succ hk
      rw [List.take_succ_cons, List.take_succ_cons, totalIndexCount_cons,
        totalIndexCount_cons, List.getD_cons_succ, ih k2 hk2]
      omega

theorem length_flatMap_triples {α : Type} (l : List α) (g : α → List Nat)
    (hg : ∀ a, (g a).length = 3) : (l.flatMap g).length = 3 * l.length := by
  induction l with
  | nil => rfl
  | cons a rest ih =>
    rw [List.flatMap_cons, List.length_append, ih, hg a, List.length_cons]
    omega

theorem globalIndicesPerSpec_length (ms : List ImportedMesh) :
    ∀ vb : Nat, (globalIndicesPerSpec vb ms).length = totalIndexCount ms := by
  induction ms with
  | nil => intro vb; rfl
  | cons m rest ih =>
    intro vb
    unfold globalIndicesPerSpec
    rw [List.length_append, ih, totalIndexCount_cons,
      length_flatMap_triples m.faces
        (fun f => [f.i0 + vb, f.i1 + vb, f.i2 + vb]) (fun f => by simp)]

theorem globalIndicesPerSpec_lt (ms : List ImportedMesh) :
    ∀ vb : Nat, (∀ m ∈ ms, meshLocalIndicesValid m = true) →
      ∀ v ∈ globalIndicesPerSpec vb ms, v < vb + totalVertexCount ms := by
  induction ms with
  | nil =>
    intro vb _ v hv
    simp [globalIndicesPerSpec] at hv
  | cons m rest ih =>
    intro vb hval v hv
    rw [totalVertexCount_cons]
    unfold globalIndicesPerSpec at hv
    rw [List.mem_append] at hv
    cases hv with
    | inl hv =>
      rw [List.mem_flatMap] at hv
      obtain ⟨f, hf, hvf⟩ := hv
      have hb := meshLocalIndicesValid_elim m (hval m (List.mem_cons_self m rest)) f hf
      simp at hvf
      rcases hvf with h | h | h <;> omega
    | inr hv =>
      have := ih (vb + m.numVertices)
        (fun m2 hm2 => hval m2 (List.mem_cons_of_mem m hm2)) v hv
      omega

/-- Claim C2: under the no-overflow side conditions (total index and
vertex counts below 2^32) and with each mesh's local indices in range,
Scene::loadMeshes consolidates so that: mesh 0 has indexBase 0 and each
later mesh's indexBase is the previous mesh's indexBase plus its
indexCount; every mesh's indexCount is 3 times its face count; every
mesh's range fits inside the global index buffer
(indexBase + indexCount ≤ totalGlobalIndexCount, whose size is the total
index count); the global index list is exactly each mesh's local indices
offset by the number of vertices appended by earlier meshes; and every
global index value is below the total global vertex count. -/
theorem loadMeshes_index_consolidation (ms : List ImportedMesh)
    (hIdx : totalIndexCount ms < U32) (hVert : totalVertexCount ms < U32)
    (hValid : ∀ m ∈ ms, meshLocalIndicesValid m = true) :
    (loadMeshes ms).outMeshes.length = ms.length ∧
    (loadMeshes ms).gIndices.length = totalIndexCount ms ∧
    (loadMeshes ms).gIndices = globalIndicesPerSpec 0 ms ∧
    (∀ k, k < ms.length →
      ((loadMeshes ms).outMeshes.getD k default).indexCount
        = 3 * (ms.getD k default).faces.length) ∧
    (0 < ms.length → ((loadMeshes ms).outMeshes.getD 0 default).indexBase = 0) ∧
    (∀ k, k + 1 < ms.length →
      ((loadMeshes ms).outMeshes.getD (k + 1) default).indexBase
        = ((loadMeshes ms).outMeshes.getD k default).indexBase
          + ((loadMeshes ms).outMeshes.getD k default).indexCount) ∧
    (∀ k, k < ms.length →
      ((loadMeshes ms).outMeshes.getD k default).indexBase
        + ((loadMeshes ms).outMeshes.getD k default).indexCount
        ≤ (loadMeshes ms).gIndices.length) ∧
    (∀ v ∈ (loadMeshes ms).gIndices, v < totalVertexCount ms) := by
  have hspec := loadMeshesFrom_spec ms initialMeshLoadState rfl
    (by simpa [initialMeshLoadState] using hIdx)
    (by simpa [initialMeshLoadState] using hVert) hValid
  have hout : (loadMeshes ms).outMeshes = outMeshesFrom 0 0 ms := by
    unfold loadMeshes
    rw [hspec]
    rfl
  have hgi : (loadMeshes ms).gIndices = globalIndicesPerSpec 0 ms := by
    unfold loadMeshes
    rw [hspec]
    rfl
  have hgilen : (loadMeshes ms).gIndices.length = totalIndexCount ms := by
    rw [hgi, globalIndicesPerSpec_length]
  refine ⟨?_, hgilen, hgi, ?_, ?_, ?_, ?_, ?_⟩
  · rw [hout, outMeshesFrom_length]
  · intro k hk
    rw [hout, outMeshesFrom_getD ms 0 0 k hk]
  · intro hms
    rw [hout, outMeshesFrom_getD ms 0 0 0 hms]
    simp [totalIndexCount]
  · intro k hk
    rw [hout, outMeshesFrom_getD ms 0 0 (k + 1) hk,
      outMeshesFrom_getD ms 0 0 k (by omega),
      totalIndexCount_take_succ ms k (by omega)]
    simp [Nat.add_assoc]
  · intro k hk
    rw [hout, hgilen, outMeshesFrom_getD ms 0 0 k hk]
    have h1 := totalIndexCount_take_succ ms k hk
    have h2 := totalIndexCount_take_le ms (k + 1)
    simp only []
    omega
  · intro v hv
    rw [hgi] at hv
    have := globalIndicesPerSpec_lt ms 0 hValid v hv
    omega

/-- Witness for C2 at a concrete model of two meshes (3 and 2 vertices,
one triangle each), discharging the no-overflow and validity hypotheses by
evaluation. -/
theorem loadMeshes_index_consolidation_witness :
    (totalIndexCount [ImportedMesh.mk 3 [ImportedFace.mk 0 1 2] 0,
        ImportedMesh.mk 2 [ImportedFace.mk 0 0 1] 1] < U32 ∧
     totalVertexCount [ImportedMesh.mk 3 [ImportedFace.mk 0 1 2] 0,
        ImportedMesh.mk 2 [ImportedFace.mk 0 0 1] 1] < U32 ∧
     (∀ m ∈ [ImportedMesh.mk 3 [ImportedFace.mk 0 1 2] 0,
        ImportedMesh.mk 2 [ImportedFace.mk 0 0 1] 1],
        meshLocalIndicesValid m = true)) ∧
    ((loadMeshes [ImportedMesh.mk 3 [ImportedFace.mk 0 1 2] 0,
        ImportedMesh.mk 2 [ImportedFace.mk 0 0 1] 1]).outMeshes.length
      = [ImportedMesh.mk 3 [ImportedFace.mk 0 1 2] 0,
        ImportedMesh.mk 2 [ImportedFace.mk 0 0 1] 1].length ∧
     (loadMeshes [ImportedMesh.mk 3 [ImportedFace.mk 0 1 2] 0,
        ImportedMesh.mk 2 [ImportedFace.mk 0 0 1] 1]).gIndices.length
      = totalIndexCount [ImportedMesh.mk 3 [ImportedFace.mk 0 1 2] 0,
        ImportedMesh.mk 2 [ImportedFace.mk 0 0 1] 1] ∧
     (loadMeshes [ImportedMesh.mk 3 [ImportedFace.mk 0 1 2] 0,
        ImportedMesh.mk 2 [ImportedFace.mk 0 0 1] 1]).gIndices
      = globalIndicesPerSpec 0 [ImportedMesh.mk 3 [ImportedFace.mk 0 1 2] 0,
        ImportedMesh.mk 2 [ImportedFace.mk 0 0 1] 1] ∧
     (∀ k, k < [ImportedMesh.mk 3 [ImportedFace.mk 0 1 2] 0,
        ImportedMesh.mk 2 [ImportedFace.mk 0 0 1] 1].length →
       ((loadMeshes [ImportedMesh.mk 3 [ImportedFace.mk 0 1 2] 0,
          ImportedMesh.mk 2 [ImportedFace.mk 0 0 1] 1]).outMeshes.getD k
            default).indexCount
        = 3 * ([ImportedMesh.mk 3 [ImportedFace.mk 0 1 2] 0,
          ImportedMesh.mk 2 [ImportedFace.mk 0 0 1] 1].getD k default).faces.length) ∧
     (0 < [ImportedMesh.mk 3 [ImportedFace.mk 0 1 2] 0,
        ImportedMesh.mk 2 [ImportedFace.mk 0 0 1] 1].length →
       ((loadMeshes [ImportedMesh.mk 3 [ImportedFace.mk 0 1 2] 0,
          ImportedMesh.mk 2 [ImportedFace.mk 0 0 1] 1]).outMeshes.getD 0
            default).indexBase = 0) ∧
     (∀ k, k + 1 < [ImportedMesh.mk 3 [ImportedFace.mk 0 1 2] 0,
        ImportedMesh.mk 2 [ImportedFace.mk 0 0 1] 1].length →
       ((loadMeshes [ImportedMesh.mk 3 [ImportedFace.mk 0 1 2] 0,
          ImportedMesh.mk 2 [ImportedFace.mk 0 0 1] 1]).outMeshes.getD (k + 1)
            default).indexBase
        = ((loadMeshes [ImportedMesh.mk 3 [ImportedFace.mk 0 1 2] 0,
            ImportedMesh.mk 2 [ImportedFace.mk 0 0 1] 1]).outMeshes.getD k
              default).indexBase
          + ((loadMeshes [ImportedMesh.mk 3 [ImportedFace.mk 0 1 2] 0,
              ImportedMesh.mk 2 [ImportedFace.mk 0 0 1] 1]).outMeshes.getD k
                default).indexCount) ∧
     (∀ k, k < [ImportedMesh.mk 3 [ImportedFace.mk 0 1 2] 0,
        ImportedMesh.mk 2 [ImportedFace.mk 0 0 1] 1].length →
       ((loadMeshes [ImportedMesh.mk 3 [ImportedFace.mk 0 1 2] 0,
          ImportedMesh.mk 2 [ImportedFace.mk 0 0 1] 1]).outMeshes.getD k
            default).indexBase
        + ((loadMeshes [ImportedMesh.mk 3 [ImportedFace.mk 0 1 2] 0,
            ImportedMesh.mk 2 [ImportedFace.mk 0 0 1] 1]).outMeshes.getD k
              default).indexCount
        ≤ (loadMeshes [ImportedMesh.mk 3 [ImportedFace.mk 0 1 2] 0,
            ImportedMesh.mk 2 [ImportedFace.mk 0 0 1] 1]).gIndices.length) ∧
     (∀ v ∈ (loadMeshes [ImportedMesh.mk 3 [ImportedFace.mk 0 1 2] 0,
        ImportedMesh.mk 2 [ImportedFace.mk 0 0 1] 1]).gIndices,
       v < totalVertexCount [ImportedMesh.mk 3 [ImportedFace.mk 0 1 2] 0,
        ImportedMesh.mk 2 [ImportedFace.mk 0 0 1] 1])) :=
  ⟨⟨by decide, by decide, by decide⟩,
   loadMeshes_index_consolidation
     [ImportedMesh.mk 3 [ImportedFace.mk 0 1 2] 0,
      ImportedMesh.mk 2 [ImportedFace.mk 0 0 1] 1]
     (by decide) (by decide) (by decide)⟩

/-! ## C7: material texture resolution and dedup -/

theorem texPreserves_refl (a : TexState) : TexPreserves a a := fun _ _ h => h

theorem texPreserves_trans {a b c : TexState} (h1 : TexPreserves a b)
    (h2 : TexPreserves b c) : TexPreserves a c :=
  fun k v hk => h2 k v (h1 k v hk)

theorem texGet_preserves (ts : TexState) (n : String) :
    TexPreserves ts (texGet ts n).2 := by
  intro k v hk
  show ((ts.textures.get n).2).lookup k = some v
  by_cases hkn : k = n
  · subst hkn
    rw [Registry.get_snd_lookup_self, hk]
    rfl
  · rw [Registry.get_snd_lookup_ne _ k n hkn]
    exact hk

theorem texGet_post (ts : TexState) (n : String) :
    ((texGet ts n).2).textures.lookup n = some ((texGet ts n).1) := by
  show ((ts.textures.get n).2).lookup n = some ((ts.textures.get n).1)
  rw [Registry.get_snd_lookup_self, Registry.get_fst]

theorem texGet_logwf (ts : TexState) (n : String) (hwf : TexLogWf ts) :
    TexLogWf (texGet ts n).2 := by
  obtain ⟨hnd, hmem⟩ := hwf
  refine ⟨hnd, ?_⟩
  intro x hx
  have hs := hmem x hx
  cases hl : ts.textures.lookup x with
  | none => rw [hl] at hs; simp at hs
  | some v =>
    have h2 := texGet_preserves ts n x v hl
    simp [h2]

theorem addTexture2D_post (ts : TexState) (n : String) :
    ((addTexture2D ts n).2).textures.lookup n = some ((addTexture2D ts n).1) := by
  show (ts.textures.store n ts.nextHandle).lookup n = some ts.nextHandle
  exact Registry.lookup_store_self ts.textures n ts.nextHandle

theorem addTexture2D_preserves_absent (ts : TexState) (n : String)
    (habs : ts.textures.lookup n = none) :
    TexPreserves ts (addTexture2D ts n).2 := by
  intro k v hk
  show (ts.textures.store n ts.nextHandle).lookup k = some v
  by_cases hkn : k = n
  · subst hkn
    rw [hk] at habs
    cases habs
  · rw [Registry.lookup_store_ne ts.textures k n ts.nextHandle hkn]
    exact hk

theorem addTexture2D_logwf (ts : TexState) (n : String) (hnl : n ∉ ts.loadLog)
    (hwf : TexLogWf ts) : TexLogWf (addTexture2D ts n).2 := by
  obtain ⟨hnd, hmem⟩ := hwf
  constructor
  · show (ts.loadLog ++ [n]).Nodup
    simp [List.nodup_append, hnd, hnl]
  · intro x hx
    have hx2 : x ∈ ts.loadLog ++ [n] := hx
    rw [List.mem_append] at hx2
    show ((ts.textures.store n ts.nextHandle).lookup x).isSome = true
    by_cases hxn : x = n
    · subst hxn
      rw [Registry.lookup_store_self]
      rfl
    · rw [Registry.lookup_store_ne ts.textures x n ts.nextHandle hxn]
      cases hx2 with
      | inl hmemx => exact hmem x hmemx
      | inr hsing => simp at hsing; exact absurd hsing hxn

theorem resolveTexture_preserves (ts : TexState) (p : String) :
    TexPreserves ts (resolveTexture ts p).2 := by
  unfold resolveTexture
  by_cases hp : ts.textures.isPresent (normalizePath p) = true
  · simp only [hp, if_true]
    exact texGet_preserves ts (normalizePath p)
  · simp only [hp, if_false, Bool.false_eq_true]
    have habs : ts.textures.lookup (normalizePath p) = none := by
      unfold Registry.isPresent at hp
      cases hl : ts.textures.lookup (normalizePath p) with
      | none => rfl
      | some v => rw [hl] at hp; simp at hp
    exact addTexture2D_preserves_absent ts (normalizePath p) habs

theorem resolveTexture_post (ts : TexState) (p : String) :
    ((resolveTexture ts p).2).textures.lookup (normalizePath p)
      = some ((resolveTexture ts p).1) := by
  unfold resolveTexture
  by_cases hp : ts.textures.isPresent (normalizePath p) = true
  · simp only [hp, if_true]
    exact texGet_post ts (normalizePath p)
  · simp only [hp, if_false, Bool.false_eq_true]
    exact addTexture2D_post ts (normalizePath p)

theorem resolveTexture_logwf (ts : TexState) (p : String) (hwf : TexLogWf ts) :
    TexLogWf (resolveTexture ts p).2 := by
  unfold resolveTexture
  by_cases hp : ts.textures.isPresent (normalizePath p) = true
  · simp only [hp, if_true]
    exact texGet_logwf ts (normalizePath p) hwf
  · simp only [hp, if_false, Bool.false_eq_true]
    refine addTexture2D_logwf ts (normalizePath p) ?_ hwf
    intro hmem
    have hs := hwf.2 (normalizePath p) hmem
    unfold Registry.isPresent at hp
    exact hp hs

theorem resolveChannel_preserves (ts : TexState) (path : Option String)
    (dn : String) : TexPreserves ts (resolveChannel ts path dn).2.2 := by
  cases path with
  | some p => exact resolveTexture_preserves ts p
  | none => exact texGet_preserves ts dn

theorem resolveChannel_post (ts : TexState) (path : Option String) (dn : String) :
    ((resolveChannel ts path dn).2.2).textures.lookup
        (match path with | some p => normalizePath p | none => dn)
      = some ((resolveChannel ts path dn).1) := by
  cases path with
  | some p => exact resolveTexture_post ts p
  | none => exact texGet_post ts dn

theorem resolveChannel_logwf (ts : TexState) (path : Option String) (dn : String)
    (hwf : TexLogWf ts) : TexLogWf (resolveChannel ts path dn).2.2 := by
  cases path with
  | some p => exact resolveTexture_logwf ts p hwf
  | none => exact texGet_logwf ts dn hwf

theorem resolveOverride_preserves (ts : TexState) (path : Option String)
    (fb : Nat) : TexPreserves ts (resolveOverride ts path fb).2.2 := by
  cases path with
  | some p => exact resolveTexture_preserves ts p
  | none => exact texPreserves_refl ts

theorem resolveOverride_logwf (ts : TexState) (path : Option String) (fb : Nat)
    (hwf : TexLogWf ts) : TexLogWf (resolveOverride ts path fb).2.2 := by
  cases path with
  | some p => exact resolveTexture_logwf ts p hwf
  | none => exact hwf

theorem processMaterial_preserves (ts : TexState) (pipe : Nat)
    (im : ImportedMaterial) : TexPreserves ts (processMaterial ts pipe im).2 := by
  refine texPreserves_trans (resolveChannel_preserves ts im.diffusePath "dummy.diffuse")
    (texPreserves_trans (texGet_preserves _ "dummy.specular")
      (texPreserves_trans (texGet_preserves _ "dialectric.metallic")
        (texPreserves_trans (resolveChannel_preserves _ im.bumpPath "dummy.bump")
          (texPreserves_trans (resolveOverride_preserves _ im.roughnessPath _)
            (resolveOverride_preserves _ im.metallicPath _)))))

theorem processMaterial_logwf (ts : TexState) (pipe : Nat)
    (im : ImportedMaterial) (hwf : TexLogWf ts) :
    TexLogWf (processMaterial ts pipe im).2 :=
  resolveOverride_logwf _ im.metallicPath _
    (resolveOverride_logwf _ im.roughnessPath _
      (resolveChannel_logwf _ im.bumpPath "dummy.bump"
        (texGet_logwf _ "dialectric.metallic"
          (texGet_logwf _ "dummy.specular"
            (resolveChannel_logwf ts im.diffusePath "dummy.diffuse" hwf)))))

theorem processMaterial_diffuse_post (ts : TexState) (pipe : Nat)
    (im : ImportedMaterial) :
    ((processMaterial ts pipe im).2).textures.lookup (diffuseKey im)
      = some ((processMaterial ts pipe im).1).diffuse := by
  have hpost := resolveChannel_post ts im.diffusePath "dummy.diffuse"
  have hpres : TexPreserves (resolveChannel ts im.diffusePath "dummy.diffuse").2.2
      (processMaterial ts pipe im).2 :=
    texPreserves_trans (texGet_preserves _ "dummy.specular")
      (texPreserves_trans (texGet_preserves _ "dialectric.metallic")
        (texPreserves_trans (resolveChannel_preserves _ im.bumpPath "dummy.bump")
          (texPreserves_trans (resolveOverride_preserves _ im.roughnessPath _)
            (resolveOverride_preserves _ im.metallicPath _))))
  exact hpres _ _ hpost

theorem loadMaterialsFrom_spec (pipe : Nat) :
    ∀ (ims : List ImportedMaterial) (ts : TexState),
      TexPreserves ts (loadMaterialsFrom ts pipe ims).2 ∧
      (TexLogWf ts → TexLogWf (loadMaterialsFrom ts pipe ims).2) ∧
      (∀ i, i < ims.length →
        ((loadMaterialsFrom ts pipe ims).2).textures.lookup
            (diffuseKey (ims.getD i default))
          = some (((loadMaterialsFrom ts pipe ims).1.getD i default).diffuse)) := by
  intro ims
  induction ims with
  | nil =>
    intro ts
    refine ⟨texPreserves_refl ts, fun h => h, ?_⟩
    intro i hi
    simp at hi
  | cons im rest ih =>
    intro ts
    obtain ⟨ihp, ihw, ihl⟩ := ih (processMaterial ts pipe im).2
    refine ⟨texPreserves_trans (processMaterial_preserves ts pipe im) ihp,
      fun h => ihw (processMaterial_logwf ts pipe im h), ?_⟩
    intro i hi
    cases i with
    | zero =>
      show ((loadMaterialsFrom (processMaterial ts pipe im).2 pipe rest).2).textures.lookup
          (diffuseKey im)
        = some ((processMaterial ts pipe im).1).diffuse
      exact ihp _ _ (processMaterial_diffuse_post ts pipe im)
    | succ i2 =>
      have hi2 : i2 < rest.length := by simpa using Nat.lt_of_succ_lt_succ hi
      have := ihl i2 hi2
      simpa [loadMaterialsFrom] using this

/-- Claim C7: starting from a texture registry state with a well-formed
load log not yet containing the four dummy keys, loadMaterials gives every
material that declares no diffuse texture a diffuse handle equal to the
shared dummy.diffuse handle; any two materials whose diffuse texture file
paths are equal resolve to the identical handle; and no registry key is
texture-loaded more than once (the load log stays duplicate free: dedup by
path, not by material). -/
theorem loadMaterials_dedup (ts0 : TexState) (scenePipeline : Nat)
    (ims : List ImportedMaterial)
    (hwf : TexLogWf ts0)
    (hd1 : "dummy.diffuse" ∉ ts0.loadLog)
    (hd2 : "dummy.specular" ∉ ts0.loadLog)
    (hd3 : "dummy.bump" ∉ ts0.loadLog)
    (hd4 : "dialectric.metallic" ∉ ts0.loadLog) :
    (∀ i, i < ims.length → (ims.getD i default).diffusePath = none →
      ((loadMaterials ts0 scenePipeline ims).1.getD i default).diffuse
        = (((loadMaterials ts0 scenePipeline ims).2).textures.lookup
            "dummy.diffuse").getD 0) ∧
    (∀ i j p, i < ims.length → j < ims.length →
      (ims.getD i default).diffusePath = some p →
      (ims.getD j default).diffusePath = some p →
      ((loadMaterials ts0 scenePipeline ims).1.getD i default).diffuse
        = ((loadMaterials ts0 scenePipeline ims).1.getD j default).diffuse) ∧
    ((loadMaterials ts0 scenePipeline ims).2).loadLog.Nodup := by
  obtain ⟨hp, hw, hl⟩ := loadMaterialsFrom_spec scenePipeline ims
    (addTexture2D (addTexture2D (addTexture2D
      (addTexture2D ts0 "dummy.diffuse").2 "dummy.specular").2
        "dummy.bump").2 "dialectric.metallic").2
  refine ⟨?_, ?_, ?_⟩
  · intro i hi hnone
    have hkey := hl i hi
    rw [show diffuseKey (ims.getD i default) = "dummy.diffuse" by
      unfold diffuseKey; rw [hnone]] at hkey
    show ((loadMaterials ts0 scenePipeline ims).1.getD i default).diffuse
      = (((loadMaterials ts0 scenePipeline ims).2).textures.lookup
          "dummy.diffuse").getD 0
    rw [show (loadMaterials ts0 scenePipeline ims)
        = loadMaterialsFrom (addTexture2D (addTexture2D (addTexture2D
            (addTexture2D ts0 "dummy.diffuse").2 "dummy.specular").2
              "dummy.bump").2 "dialectric.metallic").2 scenePipeline ims from rfl,
      hkey]
    rfl
  · intro i j p hi hj hpi hpj
    have hki := hl i hi
    have hkj := hl j hj
    rw [show diffuseKey (ims.getD i default) = normalizePath p by
      unfold diffuseKey; rw [hpi]] at hki
    rw [show diffuseKey (ims.getD j default) = normalizePath p by
      unfold diffuseKey; rw [hpj]] at hkj
    have heq := hki.symm.trans hkj
    simpa using heq
  · apply (hw ?_).1
    have h1 := addTexture2D_logwf ts0 "dummy.diffuse" hd1 hwf
    have h2 := addTexture2D_logwf _ "dummy.specular"
      (by simp [addTexture2D, hd2]) h1
    have h3 := addTexture2D_logwf _ "dummy.bump"
      (by simp [addTexture2D, hd3]) h2
    exact addTexture2D_logwf _ "dialectric.metallic"
      (by simp [addTexture2D, hd4]) h3

/-- Witness for C7 at a concrete input: an empty initial registry state
and three materials — two sharing the diffuse path tex\wall.dds and one
with no diffuse texture. -/
theorem loadMaterials_dedup_witness :
    (TexLogWf (TexState.mk ⟨[]⟩ 0 []) ∧
     "dummy.diffuse" ∉ (TexState.mk (⟨[]⟩ : Registry Nat) 0 []).loadLog ∧
     "dummy.specular" ∉ (TexState.mk (⟨[]⟩ : Registry Nat) 0 []).loadLog ∧
     "dummy.bump" ∉ (TexState.mk (⟨[]⟩ : Registry Nat) 0 []).loadLog ∧
     "dialectric.metallic" ∉ (TexState.mk (⟨[]⟩ : Registry Nat) 0 []).loadLog) ∧
    ((∀ i, i < [ImportedMaterial.mk "a" (some "tex\\wall.dds") none none none false,
        ImportedMaterial.mk "b" (some "tex\\wall.dds") none none none false,
        ImportedMaterial.mk "c" none none none none true].length →
      ([ImportedMaterial.mk "a" (some "tex\\wall.dds") none none none false,
        ImportedMaterial.mk "b" (some "tex\\wall.dds") none none none false,
        ImportedMaterial.mk "c" none none none none true].getD i default).diffusePath
          = none →
      ((loadMaterials (TexState.mk ⟨[]⟩ 0 []) 0
          [ImportedMaterial.mk "a" (some "tex\\wall.dds") none none none false,
           ImportedMaterial.mk "b" (some "tex\\wall.dds") none none none false,
           ImportedMaterial.mk "c" none none none none true]).1.getD i default).diffuse
        = (((loadMaterials (TexState.mk ⟨[]⟩ 0 []) 0
              [ImportedMaterial.mk "a" (some "tex\\wall.dds") none none none false,
               ImportedMaterial.mk "b" (some "tex\\wall.dds") none none none false,
               ImportedMaterial.mk "c" none none none none
                 true]).2).textures.lookup "dummy.diffuse").getD 0) ∧
     (∀ i j p, i < [ImportedMaterial.mk "a" (some "tex\\wall.dds") none none none false,
        ImportedMaterial.mk "b" (some "tex\\wall.dds") none none none false,
        ImportedMaterial.mk "c" none none none none true].length →
      j < [ImportedMaterial.mk "a" (some "tex\\wall.dds") none none none false,
        ImportedMaterial.mk "b" (some "tex\\wall.dds") none none none false,
        ImportedMaterial.mk "c" none none none none true].length →
      ([ImportedMaterial.mk "a" (some "tex\\wall.dds") none none none false,
        ImportedMaterial.mk "b" (some "tex\\wall.dds") none none none false,
        ImportedMaterial.mk "c" none none none none true].getD i default).diffusePath
          = some p →
      ([ImportedMaterial.mk "a" (some "tex\\wall.dds") none none none false,
        ImportedMaterial.mk "b" (some "tex\\wall.dds") none none none false,
        ImportedMaterial.mk "c" none none none none true].getD j default).diffusePath
          = some p →
      ((loadMaterials (TexState.mk ⟨[]⟩ 0 []) 0
          [ImportedMaterial.mk "a" (some "tex\\wall.dds") none none none false,
           ImportedMaterial.mk "b" (some "tex\\wall.dds") none none none false,
           ImportedMaterial.mk "c" none none none none true]).1.getD i default).diffuse
        = ((loadMaterials (TexState.mk ⟨[]⟩ 0 []) 0
            [ImportedMaterial.mk "a" (some "tex\\wall.dds") none none none false,
             ImportedMaterial.mk "b" (some "tex\\wall.dds") none none none false,
             ImportedMaterial.mk "c" none none none none
               true]).1.getD j default).diffuse) ∧
     ((loadMaterials (TexState.mk ⟨[]⟩ 0 []) 0
         [ImportedMaterial.mk "a" (some "tex\\wall.dds") none none none false,
          ImportedMaterial.mk "b" (some "tex\\wall.dds") none none none false,
          ImportedMaterial.mk "c" none none none none
            true]).2).loadLog.Nodup) := by
  have hwf : TexLogWf (TexState.mk ⟨[]⟩ 0 []) := ⟨List.nodup_nil, by simp⟩
  have h1 : "dummy.diffuse" ∉ (TexState.mk (⟨[]⟩ : Registry Nat) 0 []).loadLog := by
    simp
  have h2 : "dummy.specular" ∉ (TexState.mk (⟨[]⟩ : Registry Nat) 0 []).loadLog := by
    simp
  have h3 : "dummy.bump" ∉ (TexState.mk (⟨[]⟩ : Registry Nat) 0 []).loadLog := by
    simp
  have h4 : "dialectric.metallic" ∉ (TexState.mk (⟨[]⟩ : Registry Nat) 0 []).loadLog := by
    simp
  exact ⟨⟨hwf, h1, h2, h3, h4⟩,
    loadMaterials_dedup (TexState.mk ⟨[]⟩ 0 []) 0
      [ImportedMaterial.mk "a" (some "tex\\wall.dds") none none none false,
       ImportedMaterial.mk "b" (some "tex\\wall.dds") none none none false,
       ImportedMaterial.mk "c" none none none none true] hwf h1 h2 h3 h4⟩

end VSponza
